import Mathlib

/-!
Shallow embedding of the memory-game backend (NestJS/TypeScript) for
verification of its natural-language specification.

Embedded sources:
* `GamesService` (games.service.ts, revision with reveal-marking and
  `validateCardPositions`): `createGame`, `findGame`, `makeMove`,
  `createShuffledCards`, `validateCardPositions`, `validateSessionKey`.
* `LeaderboardService` (leaderboard.service.ts): `getTopGames`,
  `calculateScore`, `validatePaginationParams`, `validateFilterParams`.

JavaScript numbers are modelled as `ℤ` (timestamps, scores, pagination
parameters) or `ℕ` (counters); the exact arithmetic of the score formula is
carried out in `ℚ`, with `Math.round` modelled as `⌊x + 1/2⌋` (JS rounds
half towards +∞).  Mongo documents are modelled as a `List Game` store whose
`findOne` returns the first match in insertion order and whose `save`
replaces that document in place.  `Math.random()`-driven choices are
modelled by an oracle `rands : ℕ → ℕ` reduced mod the live range, and
`uuidv4()` by an oracle, so every theorem quantifies over all random
outcomes.
-/

namespace MemoryGame

/-! ### Score function (LeaderboardService.calculateScore) -/

/-- `Math.round` in JavaScript: round half towards positive infinity. -/
def jsRound (x : ℚ) : ℤ := ⌊x + 1/2⌋

/-- `LeaderboardService.calculateScore` (leaderboard.service.ts):
`attemptsScore = max(0, 1000 - attempts*10)`,
`timeScore = max(0, 1000 - completionTime/1000)`,
result `Math.round((attemptsScore + timeScore) / 2)`. -/
def calculateScore (attempts completionTime : ℤ) : ℤ :=
  let attemptsScore : ℚ := max 0 (1000 - (attempts : ℚ) * 10)
  let timeScore : ℚ := max 0 (1000 - (completionTime : ℚ) / 1000)
  jsRound ((attemptsScore + timeScore) / 2)

/-- The score formula exactly as written in the spec (§4.3):
`score(attempts, completionTimeMs) =
   round((max(0, 1000 − 10·attempts) + max(0, 1000 − completionTimeMs/1000)) / 2)`. -/
def specScore (attempts completionTimeMs : ℤ) : ℤ :=
  jsRound ((max 0 (1000 - 10 * (attempts : ℚ)) +
            max 0 (1000 - (completionTimeMs : ℚ) / 1000)) / 2)

/-! ### Data model (game.schema.ts) -/

/-- A card of the 4×4 grid (schema `Card`). -/
structure Card where
  id : String
  animal : String
  position : String
  isMatched : Bool
  isRevealed : Bool
deriving Repr, DecidableEq

/-- One move record (schema `GameMove`). -/
structure GameMove where
  cards : List String
  animals : List String
  isMatch : Bool
  timestamp : ℤ
deriving Repr, DecidableEq

/-- A persisted game session (schema `Game`).  Timestamps are `Date.getTime()`
values in milliseconds. -/
structure Game where
  sessionKey : String
  cards : List Card
  moves : List GameMove
  attempts : ℕ
  startTime : ℤ
  endTime : Option ℤ
  isCompleted : Bool
  matchedPairs : List (List String)
deriving Repr, DecidableEq

/-- Error taxonomy of the service layer: `BadRequestException` vs
`NotFoundException`. -/
inductive ServiceError where
  | badRequest : String → ServiceError
  | notFound : String → ServiceError
deriving Repr, DecidableEq

/-- `GamesService.animals`: the 8 animal category labels. -/
def animals : List String :=
  ["Dog", "Cat", "Elephant", "Lion", "Tiger", "Bear", "Rabbit", "Horse"]

/-- `GamesService.validPositions`: the fixed 16-coordinate enumeration. -/
def validPositions : List String :=
  ["A1", "A2", "A3", "A4",
   "B1", "B2", "B3", "B4",
   "C1", "C2", "C3", "C4",
   "D1", "D2", "D3", "D4"]

/-! ### Shuffle (GamesService.createShuffledCards) -/

/-- Swap the entries at indices `i` and `j` of a list
(`[a[i], a[j]] = [a[j], a[i]]`). -/
def listSwap (l : List α) (i j : ℕ) : List α :=
  match l[i]?, l[j]? with
  | some a, some b => (l.set i b).set j a
  | _, _ => l

/-- The Fisher–Yates loop body: iterations `i = n, n-1, ..., 1` of
`j = Math.floor(Math.random() * (i + 1)); swap(i, j)`, with the random draw
at iteration `i` modelled as `rands i % (i + 1)`. -/
def fyAux (rands : ℕ → ℕ) : ℕ → List α → List α
  | 0, l => l
  | i + 1, l => fyAux rands i (listSwap l (i + 1) (rands (i + 1) % (i + 2)))

/-- The in-place Fisher–Yates shuffle of `createShuffledCards`
(`for (let i = length - 1; i > 0; i--) { ... swap ... }`). -/
def fisherYates (rands : ℕ → ℕ) (l : List α) : List α :=
  fyAux rands (l.length - 1) l

/-- The card-construction pass of `createShuffledCards`
(`this.validPositions.map((position, index) => ({...}))`): assign the
shuffled animal values to the positions in fixed enumeration order.
`cardUuids i` models the `uuidv4()` drawn for the card at index `i`. -/
def buildCards (cardUuids : ℕ → String) (animalPairs : List String) :
    List Card :=
  validPositions.enum.map fun ip =>
    { id := cardUuids ip.1
      animal := animalPairs.getD ip.1 ""
      position := ip.2
      isMatched := false
      isRevealed := false }

/-- `GamesService.createShuffledCards`: duplicate the animal list, shuffle the
values, then assign them to the positions in fixed enumeration order. -/
def createShuffledCards (cardUuids : ℕ → String) (rands : ℕ → ℕ) : List Card :=
  buildCards cardUuids (fisherYates rands (animals ++ animals))

/-! ### Move resolution (GamesService.makeMove) -/

/-- The regex test `/^[A-D][1-4]$/.test(position)`. -/
def matchesPositionRegex (s : String) : Bool :=
  match s.data with
  | [c1, c2] => ('A' ≤ c1 && c1 ≤ 'D') && ('1' ≤ c2 && c2 ≤ '4')
  | _ => false

/-- `GamesService.validateCardPositions`: exactly two cards, distinct,
well-formed, and members of the fixed position set; on success returns the
two positions. -/
def validateCardPositions (positions : List String) :
    Except ServiceError (String × String) :=
  match positions with
  | [p0, p1] =>
    if p0 == p1 then
      .error (.badRequest "Cannot select the same card twice")
    else if !(matchesPositionRegex p0 && matchesPositionRegex p1) then
      .error (.badRequest "Card positions must be in in the range A - D, 1 - 4.")
    else if !(validPositions.contains p0 && validPositions.contains p1) then
      .error (.badRequest "Invalid card positions")
    else
      .ok (p0, p1)
  | _ => .error (.badRequest "Must select exactly 2 cards")

/-- Replace the first element satisfying `q` by its image under `f`; models
in-place mutation of the object returned by `Array.prototype.find`. -/
def updateFirstP (q : α → Bool) (f : α → α) : List α → List α
  | [] => []
  | x :: xs => if q x then f x :: xs else x :: updateFirstP q f xs

/-- The card-lookup predicate `c => c.position === p`. -/
def posMatch (p : String) (c : Card) : Bool := c.position == p

/-- `card.isRevealed = true`. -/
def revealCard (c : Card) : Card := { c with isRevealed := true }

/-- `card.isMatched = true`. -/
def matchCard (c : Card) : Card := { c with isMatched := true }

/-- Apply `f` in place to the card found at `p0` and to the card found at
`p1` (the successive object mutations of `makeMove`). -/
def twoPhase (f : Card → Card) (p0 p1 : String) (cards : List Card) :
    List Card :=
  updateFirstP (posMatch p1) f (updateFirstP (posMatch p0) f cards)

/-- The value returned by `makeMove` (match result, labels, completion flag,
message, and — on a match — the matched positions). -/
structure MoveResult where
  isMatch : Bool
  animals : List String
  gameCompleted : Bool
  message : String
  matchedPositions : Option (List String)
deriving Repr, DecidableEq

/-- The mutation phase of `makeMove`, applied after all validation passed:
reveal both cards, append the move record, bump `attempts`, and on a match
mark both cards matched, record the pair and detect completion. -/
def applyMove (g : Game) (p0 p1 : String) (card1 card2 : Card) (now : ℤ) :
    Game × MoveResult :=
  let cardsRevealed := twoPhase revealCard p0 p1 g.cards
  let moveAnimals := [card1.animal, card2.animal]
  let isMatch := card1.animal == card2.animal
  let move : GameMove := ⟨[p0, p1], moveAnimals, isMatch, now⟩
  if isMatch then
    let cardsMatched := twoPhase matchCard p0 p1 cardsRevealed
    let allMatched := cardsMatched.all (·.isMatched)
    ({ g with
        cards := cardsMatched
        moves := g.moves ++ [move]
        attempts := g.attempts + 1
        matchedPairs := g.matchedPairs ++ [[p0, p1]]
        isCompleted := if allMatched then true else g.isCompleted
        endTime := if allMatched then some now else g.endTime },
     ⟨true, moveAnimals, if allMatched then true else g.isCompleted,
      "Match found! " ++ card1.animal ++ " pairs matched.", some [p0, p1]⟩)
  else
    ({ g with
        cards := cardsRevealed
        moves := g.moves ++ [move]
        attempts := g.attempts + 1 },
     ⟨false, moveAnimals, g.isCompleted,
      "No match. " ++ card1.animal ++ " and " ++ card2.animal ++ " don't match.",
      none⟩)

/-- `GamesService.makeMove` restricted to an already-looked-up game document:
completion check, position validation, card lookup, matched-card check, then
`applyMove`. -/
def makeMoveGame (g : Game) (positions : List String) (now : ℤ) :
    Except ServiceError (Game × MoveResult) :=
  if g.isCompleted then .error (.badRequest "Game is already completed")
  else
    match validateCardPositions positions with
    | .error e => .error e
    | .ok (p0, p1) =>
      match g.cards.find? (posMatch p0), g.cards.find? (posMatch p1) with
      | some card1, some card2 =>
        if card1.isMatched || card2.isMatched then
          .error (.badRequest "Cannot select already matched cards")
        else
          .ok (applyMove g p0 p1 card1 card2 now)
      | _, _ => .error (.badRequest "Invalid card positions")

/-! ### Store-level operations (GamesService over the Mongo collection) -/

/-- JavaScript `String.prototype.trim`: strip leading and trailing
whitespace. -/
def jsTrim (s : String) : String :=
  String.mk (((s.data.dropWhile Char.isWhitespace).reverse.dropWhile
    Char.isWhitespace).reverse)

/-- `GamesService.validateSessionKey`: rejects falsy or whitespace-only keys. -/
def validSessionKey (key : String) : Bool :=
  !(key == "") && !(jsTrim key == "")

/-- `gameModel.findOne({ sessionKey })`: first document with the key, in
insertion order. -/
def findGameStore (db : List Game) (key : String) : Option Game :=
  db.find? (fun g => g.sessionKey == key)

/-- `GamesService.makeMove` at the collection level: session-key validation,
lookup (`NotFoundException` when absent), the per-game move logic, and a
single `save` that replaces the looked-up document.  Returns the new
collection contents and the call's outcome. -/
def makeMove (db : List Game) (key : String) (positions : List String)
    (now : ℤ) : List Game × Except ServiceError MoveResult :=
  if !(validSessionKey key) then
    (db, .error (.badRequest "Session key is required"))
  else
    match findGameStore db key with
    | none => (db, .error (.notFound "Game not found"))
    | some g =>
      match makeMoveGame g positions now with
      | .error e => (db, .error e)
      | .ok (g2, r) =>
        (updateFirstP (fun x => x.sessionKey == key) (fun _ => g2) db, .ok r)

/-- The freshly-created session document of `createGame`. -/
def freshGame (sessionKey : String) (cardUuids : ℕ → String)
    (rands : ℕ → ℕ) (now : ℤ) : Game :=
  { sessionKey := sessionKey
    cards := createShuffledCards cardUuids rands
    moves := []
    attempts := 0
    startTime := now
    endTime := none
    isCompleted := false
    matchedPairs := [] }

/-- `createGameDto.sessionKey || uuidv4()` (the empty string is falsy). -/
def resolveKey (dtoKey : Option String) (uuid : String) : String :=
  match dtoKey with
  | some k => if k == "" then uuid else k
  | none => uuid

/-- Truthiness of `createGameDto.sessionKey`. -/
def keyProvided (dtoKey : Option String) : Bool :=
  match dtoKey with
  | some k => !(k == "")
  | none => false

/-- `GamesService.createGame`: resolve the session key
(`dto.sessionKey || uuidv4()`), validate a provided key, reject when an
active (non-completed) session with that key exists, otherwise insert a
fresh shuffled session. -/
def createGame (db : List Game) (dtoKey : Option String) (uuid : String)
    (cardUuids : ℕ → String) (rands : ℕ → ℕ) (now : ℤ) :
    List Game × Except ServiceError Game :=
  if keyProvided dtoKey && !(validSessionKey (resolveKey dtoKey uuid)) then
    (db, .error (.badRequest "Session key is required"))
  else
    match db.find? (fun g =>
        g.sessionKey == resolveKey dtoKey uuid && !g.isCompleted) with
    | some _ =>
      (db, .error (.badRequest "Active game already exists for this session"))
    | none =>
      let game := freshGame (resolveKey dtoKey uuid) cardUuids rands now
      (db ++ [game], .ok game)

/-- Stores reachable from an empty collection through the mutating service
operations (`createGame` and `makeMove`; all other endpoints are reads). -/
inductive Reachable : List Game → Prop where
  | init : Reachable []
  | create (db : List Game) (dtoKey : Option String) (uuid : String)
      (cardUuids : ℕ → String) (rands : ℕ → ℕ) (now : ℤ) :
      Reachable db → Reachable (createGame db dtoKey uuid cardUuids rands now).1
  | move (db : List Game) (key : String) (positions : List String) (now : ℤ) :
      Reachable db → Reachable (makeMove db key positions now).1

/-- Session states reachable from creation through successful moves. -/
inductive GameReachable : Game → Prop where
  | created (sessionKey : String) (cardUuids : ℕ → String)
      (rands : ℕ → ℕ) (now : ℤ) :
      GameReachable (freshGame sessionKey cardUuids rands now)
  | step (g g2 : Game) (positions : List String) (now : ℤ) (r : MoveResult) :
      GameReachable g → makeMoveGame g positions now = .ok (g2, r) →
      GameReachable g2

/-- Number of cards whose `isMatched` flag is set. -/
def matchedCount (cards : List Card) : ℕ := cards.countP (·.isMatched)

/-- Number of active (non-completed) sessions stored under `key`. -/
def activeCount (db : List Game) (key : String) : ℕ :=
  db.countP (fun g => g.sessionKey == key && !g.isCompleted)

/-- Well-formedness of a session's grid: a card is found at every one of the
16 fixed positions. -/
def hasAllPositions (g : Game) : Bool :=
  validPositions.all (fun p => (g.cards.find? (posMatch p)).isSome)

/-! ### Leaderboard (LeaderboardService.getTopGames) -/

/-- The optional attempt/time range filter of `getTopGames`. -/
structure LeaderboardFilter where
  minAttempts : Option ℤ
  maxAttempts : Option ℤ
  minCompletionTime : Option ℤ
  maxCompletionTime : Option ℤ
deriving Repr, DecidableEq

/-- One scored leaderboard row (`LeaderboardEntry`). -/
structure LeaderboardEntry where
  sessionKey : String
  attempts : ℕ
  completionTime : ℤ
  startTime : ℤ
  endTime : ℤ
  score : ℤ
deriving Repr, DecidableEq

/-- The pagination block of a `PaginatedLeaderboard`. -/
structure Pagination where
  page : ℤ
  limit : ℤ
  total : ℕ
  totalPages : ℤ
  hasNext : Bool
  hasPrev : Bool
deriving Repr, DecidableEq

/-- `getTopGames`' return value. -/
structure PaginatedLeaderboard where
  data : List LeaderboardEntry
  pagination : Pagination
deriving Repr, DecidableEq

/-- `game.endTime.getTime()`; only evaluated on completed sessions, which
carry an end timestamp. -/
def endTimeVal (g : Game) : ℤ := g.endTime.getD 0

/-- `endTime.getTime() - startTime.getTime()`: completion time in ms. -/
def completionTimeOf (g : Game) : ℤ := endTimeVal g - g.startTime

/-- `LeaderboardService.validatePaginationParams` (MAX_LIMIT = 100); the
`Number.isInteger` tests hold identically for `ℤ`-modelled numbers. -/
def validatePaginationParams (limit page : ℤ) : Except ServiceError Unit :=
  if limit ≤ 0 then .error (.badRequest "Limit must be a positive integer")
  else if 100 < limit then .error (.badRequest "Limit cannot exceed 100")
  else if page ≤ 0 then .error (.badRequest "Page must be a positive integer")
  else .ok ()

/-- `o` is present and negative. -/
def optNeg (o : Option ℤ) : Bool :=
  match o with
  | some v => decide (v < 0)
  | none => false

/-- Both bounds present with `lo > hi`. -/
def optGt (lo hi : Option ℤ) : Bool :=
  match lo, hi with
  | some x, some y => decide (y < x)
  | _, _ => false

/-- `LeaderboardService.validateFilterParams`. -/
def validateFilterParams (filter : Option LeaderboardFilter) :
    Except ServiceError Unit :=
  match filter with
  | none => .ok ()
  | some f =>
    if optNeg f.minAttempts then
      .error (.badRequest "minAttempts must be a non-negative integer")
    else if optNeg f.maxAttempts then
      .error (.badRequest "maxAttempts must be a non-negative integer")
    else if optGt f.minAttempts f.maxAttempts then
      .error (.badRequest "minAttempts cannot be greater than maxAttempts")
    else if optNeg f.minCompletionTime then
      .error (.badRequest "minCompletionTime must be non-negative")
    else if optNeg f.maxCompletionTime then
      .error (.badRequest "maxCompletionTime must be non-negative")
    else if optGt f.minCompletionTime f.maxCompletionTime then
      .error (.badRequest "minCompletionTime cannot be greater than maxCompletionTime")
    else .ok ()

/-- The Mongo `filterQuery`: completed, `attempts ≥ minAttempts`,
`attempts ≤ maxAttempts` (each bound only when supplied). -/
def attemptsOk (filter : Option LeaderboardFilter) (g : Game) : Bool :=
  match filter with
  | none => true
  | some f =>
    (match f.minAttempts with
     | some v => decide (v ≤ (g.attempts : ℤ))
     | none => true) &&
    (match f.maxAttempts with
     | some v => decide ((g.attempts : ℤ) ≤ v)
     | none => true)

/-- The document-level filter query including the completion flag. -/
def completedFilter (filter : Option LeaderboardFilter) (g : Game) : Bool :=
  g.isCompleted && attemptsOk filter g

/-- The in-process completion-time range check applied to a page of results. -/
def timeOk (filter : Option LeaderboardFilter) (g : Game) : Bool :=
  match filter with
  | none => true
  | some f =>
    (match f.minCompletionTime with
     | some v => decide (v ≤ completionTimeOf g)
     | none => true) &&
    (match f.maxCompletionTime with
     | some v => decide (completionTimeOf g ≤ v)
     | none => true)

/-- Whether a completion-time filter was supplied at all (the code only runs
the in-process filter pass in that case). -/
def hasTimeFilter (filter : Option LeaderboardFilter) : Bool :=
  match filter with
  | none => false
  | some f => f.minCompletionTime.isSome || f.maxCompletionTime.isSome

/-- The Mongo sort key `{ attempts: 1, endTime: 1 }` as a total Boolean
order. -/
def gameLe (a b : Game) : Bool :=
  decide (a.attempts < b.attempts) ||
    (a.attempts == b.attempts && decide (endTimeVal a ≤ endTimeVal b))

/-- Insert into a `gameLe`-sorted list. -/
def insertSorted (x : Game) : List Game → List Game
  | [] => [x]
  | y :: ys => if gameLe x y then x :: y :: ys else y :: insertSorted x ys

/-- The database's `(attempts asc, endTime asc)` sort, modelled as insertion
sort. -/
def sortGames : List Game → List Game
  | [] => []
  | x :: xs => insertSorted x (sortGames xs)

/-- Build one leaderboard row: projection plus
`score = calculateScore(attempts, completionTime)`. -/
def mkEntry (g : Game) : LeaderboardEntry :=
  { sessionKey := g.sessionKey
    attempts := g.attempts
    completionTime := completionTimeOf g
    startTime := g.startTime
    endTime := endTimeVal g
    score := calculateScore (g.attempts : ℤ) (completionTimeOf g) }

/-- `countDocuments(filterQuery)`. -/
def matchCountOf (db : List Game) (filter : Option LeaderboardFilter) : ℕ :=
  (db.filter (completedFilter filter)).length

/-- `Math.ceil(total / limit)` for a positive integer `limit`. -/
def totalPagesOf (db : List Game) (limit : ℤ)
    (filter : Option LeaderboardFilter) : ℤ :=
  ((matchCountOf db filter : ℤ) + limit - 1) / limit

/-- The database page window: the `(attempts asc, endTime asc)`-sorted query
results after `skip((page-1)*limit)` and `limit`. -/
def pageWindow (db : List Game) (limit page : ℤ)
    (filter : Option LeaderboardFilter) : List Game :=
  ((sortGames (db.filter (completedFilter filter))).drop
    ((page - 1) * limit).toNat).take limit.toNat

/-- The page window after the in-process completion-time filter pass (run
only when a time bound was supplied). -/
def filteredWindow (db : List Game) (limit page : ℤ)
    (filter : Option LeaderboardFilter) : List Game :=
  if hasTimeFilter filter then
    (pageWindow db limit page filter).filter (timeOk filter)
  else
    pageWindow db limit page filter

/-- `LeaderboardService.getTopGames`: validate, query-filter and sort, take
the page window, apply the completion-time filter to the window, reject
out-of-range pages when at least one page exists, and score each row. -/
def getTopGames (db : List Game) (limit page : ℤ)
    (filter : Option LeaderboardFilter) :
    Except ServiceError PaginatedLeaderboard :=
  match validatePaginationParams limit page with
  | .error e => .error e
  | .ok _ =>
    match validateFilterParams filter with
    | .error e => .error e
    | .ok _ =>
      if page > totalPagesOf db limit filter ∧ 0 < totalPagesOf db limit filter
      then
        .error (.badRequest
          ("Page " ++ toString page ++ " exceeds total pages (" ++
           toString (totalPagesOf db limit filter) ++ ")"))
      else
        .ok { data := (filteredWindow db limit page filter).map mkEntry
              pagination :=
                { page := page
                  limit := limit
                  total := matchCountOf db filter
                  totalPages := totalPagesOf db limit filter
                  hasNext := decide (page < totalPagesOf db limit filter)
                  hasPrev := decide (1 < page) } }

/-- The ordering the spec requires of returned leaderboard rows:
attempts ascending, then end time ascending. -/
def entryLe (a b : LeaderboardEntry) : Bool :=
  decide (a.attempts < b.attempts) ||
    (a.attempts == b.attempts && decide (a.endTime ≤ b.endTime))

/-! ### Concrete instances used by witnesses and counterexamples -/

/-- A deterministic well-formed 16-card grid: animals laid out pairwise in
order, all flags clear. -/
def plainCards : List Card :=
  validPositions.enum.map fun ip =>
    { id := ""
      animal := (animals ++ animals).getD (ip.1 / 2 + 8 * (ip.1 % 2)) ""
      position := ip.2
      isMatched := false
      isRevealed := false }

/-- A concrete fresh session over `plainCards`. -/
def plainGame : Game :=
  { sessionKey := "k1"
    cards := plainCards
    moves := []
    attempts := 0
    startTime := 0
    endTime := none
    isCompleted := false
    matchedPairs := [] }

/-- Completed session: 1 attempt, 5000 ms completion time. -/
def cGameSlow : Game :=
  { sessionKey := "s1", cards := [], moves := [], attempts := 1,
    startTime := 0, endTime := some 5000, isCompleted := true,
    matchedPairs := [] }

/-- Completed session: 2 attempts, 100 ms completion time. -/
def cGameFast : Game :=
  { sessionKey := "s2", cards := [], moves := [], attempts := 2,
    startTime := 0, endTime := some 100, isCompleted := true,
    matchedPairs := [] }

/-- A filter keeping only sessions that completed within 1000 ms. -/
def cTimeFilter : LeaderboardFilter :=
  { minAttempts := none, maxAttempts := none,
    minCompletionTime := none, maxCompletionTime := some 1000 }

/-! ## Theorems -/

/-! ### Generic lemmas about `jsRound` -/

lemma jsRound_mono {x y : ℚ} (h : x ≤ y) : jsRound x ≤ jsRound y :=
  Int.floor_le_floor (by linarith)

lemma jsRound_nonneg {x : ℚ} (h : 0 ≤ x) : 0 ≤ jsRound x :=
  Int.floor_nonneg.mpr (by linarith)

lemma jsRound_le_thousand {x : ℚ} (h : x ≤ 1000) : jsRound x ≤ 1000 := by
  have h3 : jsRound x < 1001 := by
    unfold jsRound
    exact Int.floor_lt.mpr (by push_cast; linarith)
  omega

/-! ### C2: the score formula, its monotonicity and bounds -/

/-- C2: for all non-negative integer inputs, `calculateScore` equals the
spec's formula `round((max(0, 1000 − 10·attempts) + max(0, 1000 −
completionTimeMs/1000)) / 2)`, is monotonically non-increasing in each
argument separately, is never negative, and never exceeds 1000. -/
theorem calculateScore_spec_monotone_bounded
    (a t a2 t2 : ℤ) (ha : 0 ≤ a) (ht : 0 ≤ t) (ha2 : a ≤ a2) (ht2 : t ≤ t2) :
    calculateScore a t = specScore a t ∧
    calculateScore a2 t ≤ calculateScore a t ∧
    calculateScore a t2 ≤ calculateScore a t ∧
    0 ≤ calculateScore a t ∧ calculateScore a t ≤ 1000 := by
  have hcast : ∀ x y : ℤ, x ≤ y → (x : ℚ) ≤ (y : ℚ) := fun x y h =>
    Int.cast_le.mpr h
  simp only [calculateScore, specScore]
  refine ⟨by rw [mul_comm], ?_, ?_, ?_, ?_⟩
  · apply jsRound_mono
    have h1 : max 0 (1000 - (a2 : ℚ) * 10) ≤ max 0 (1000 - (a : ℚ) * 10) := by
      apply max_le_max le_rfl
      have := hcast a a2 ha2
      linarith
    linarith
  · apply jsRound_mono
    have h1 : max 0 (1000 - (t2 : ℚ) / 1000) ≤ max 0 (1000 - (t : ℚ) / 1000) := by
      apply max_le_max le_rfl
      have h2 : (t : ℚ) ≤ (t2 : ℚ) := hcast t t2 ht2
      have h3 : (t : ℚ) / 1000 ≤ (t2 : ℚ) / 1000 := by linarith
      linarith
    linarith
  · apply jsRound_nonneg
    have h1 : (0 : ℚ) ≤ max 0 (1000 - (a : ℚ) * 10) := le_max_left _ _
    have h2 : (0 : ℚ) ≤ max 0 (1000 - (t : ℚ) / 1000) := le_max_left _ _
    linarith
  · apply jsRound_le_thousand
    have h1 : max 0 (1000 - (a : ℚ) * 10) ≤ 1000 := by
      apply max_le (by norm_num)
      have h0 : (0 : ℚ) ≤ (a : ℚ) := by exact_mod_cast ha
      nlinarith
    have h2 : max 0 (1000 - (t : ℚ) / 1000) ≤ 1000 := by
      apply max_le (by norm_num)
      have h3 : (0 : ℚ) ≤ (t : ℚ) / 1000 :=
        div_nonneg (by exact_mod_cast ht) (by norm_num)
      linarith
    linarith

/-- Witness for C2 at `(a, t) = (0, 0)`, `(a2, t2) = (5, 7)`. -/
theorem calculateScore_spec_monotone_bounded_witness :
    calculateScore 0 0 = specScore 0 0 ∧
    calculateScore 5 0 ≤ calculateScore 0 0 ∧
    calculateScore 0 7 ≤ calculateScore 0 0 ∧
    0 ≤ calculateScore 0 0 ∧ calculateScore 0 0 ≤ 1000 :=
  calculateScore_spec_monotone_bounded 0 0 5 7 (by norm_num) (by norm_num)
    (by norm_num) (by norm_num)

/-! ### C3: boundary values of the score function -/

/-- C3 counterexample: the claim asserts `score(100, 600000) = 0`, but the
code returns `round((max(0, 1000−1000) + max(0, 1000−600)) / 2) = 200`. -/
theorem calculateScore_100_600000_ne_zero :
    calculateScore 100 600000 = 200 ∧ calculateScore 100 600000 ≠ 0 := by
  have h : calculateScore 100 600000 = 200 := by
    simp only [calculateScore, jsRound]
    rw [Int.floor_eq_iff] <;> norm_num
  exact ⟨h, by rw [h]; norm_num⟩

/-- C3 amended: the score function returns 1000 on input (0 attempts, 0 ms)
and 200 — not 0 — on input (100 attempts, 600000 ms). -/
theorem calculateScore_boundary_values :
    calculateScore 0 0 = 1000 ∧ calculateScore 100 600000 = 200 := by
  constructor
  · simp only [calculateScore, jsRound]
    rw [Int.floor_eq_iff] <;> norm_num
  · simp only [calculateScore, jsRound]
    rw [Int.floor_eq_iff] <;> norm_num

/-! ### C6: the shuffled 16-card set -/

lemma count_set_add [DecidableEq α] :
    ∀ (l : List α) (i : ℕ) (h : i < l.length) (b x : α),
      (l.set i b).count x + (if l[i] = x then 1 else 0) =
        l.count x + (if b = x then 1 else 0) := by
  intro l
  induction l with
  | nil => intro i h; simp at h
  | cons a t ih =>
    intro i h b x
    cases i with
    | zero =>
      simp only [List.set_cons_zero, List.count_cons, beq_iff_eq,
        List.getElem_cons_zero]
      split_ifs <;> omega
    | succ i =>
      have h2 : i < t.length := by simpa using h
      have h3 := ih i h2 b x
      simp only [List.set_cons_succ, List.count_cons, beq_iff_eq,
        List.getElem_cons_succ]
      split_ifs at h3 ⊢ <;> omega

lemma listSwap_perm [DecidableEq α] (l : List α) (i j : ℕ) :
    (listSwap l i j).Perm l := by
  cases hi : l[i]? with
  | none =>
    cases hj : l[j]? with
    | none => simp [listSwap, hi, hj]
    | some b => simp [listSwap, hi, hj]
  | some a =>
    cases hj : l[j]? with
    | none => simp [listSwap, hi, hj]
    | some b =>
      have hred : listSwap l i j = (l.set i b).set j a := by
        simp [listSwap, hi, hj]
      rw [hred, List.perm_iff_count]
      intro x
      rw [List.getElem?_eq_some] at hi hj
      obtain ⟨hi1, hi2⟩ := hi
      obtain ⟨hj1, hj2⟩ := hj
      have hjlen : j < (l.set i b).length := by simpa using hj1
      have hset : (l.set i b)[j] = b := by
        by_cases hij : i = j
        · subst hij; exact List.getElem_set_self (by simpa using hi1)
        · rw [List.getElem_set_ne hij]; exact hj2
      have e1 := count_set_add (l.set i b) j (by simpa using hj1) a x
      have e2 := count_set_add l i hi1 b x
      rw [hset] at e1
      rw [hi2] at e2
      split_ifs at e1 e2 <;> omega

lemma fyAux_perm [DecidableEq α] (rands : ℕ → ℕ) :
    ∀ (n : ℕ) (l : List α), (fyAux rands n l).Perm l := by
  intro n
  induction n with
  | zero => intro l; simp [fyAux]
  | succ i ih =>
    intro l
    exact (ih _).trans (listSwap_perm l (i + 1) (rands (i + 1) % (i + 2)))

lemma fisherYates_perm [DecidableEq α] (rands : ℕ → ℕ) (l : List α) :
    (fisherYates rands l).Perm l :=
  fyAux_perm rands (l.length - 1) l

lemma map_enum_getD (l1 : List α) (l2 : List β) (d : β)
    (h : l2.length = l1.length) :
    l1.enum.map (fun ip => l2.getD ip.1 d) = l2 := by
  apply List.ext_getElem
  · simp [h]
  · intro i h1 h2
    have hi1 : i < l1.enum.length := by simpa using h1
    have hi2 : i < l1.length := by simpa using h1
    rw [List.getElem_map]
    rw [List.getElem_enum l1 i hi1]
    exact List.getD_eq_getElem l2 d h2

lemma buildCards_animal_map (cardUuids : ℕ → String) (ap : List String)
    (h : ap.length = 16) :
    (buildCards cardUuids ap).map (·.animal) = ap := by
  unfold buildCards
  rw [List.map_map]
  apply map_enum_getD
  rw [h]; rfl

lemma createShuffledCards_animal_map (cardUuids : ℕ → String)
    (rands : ℕ → ℕ) :
    (createShuffledCards cardUuids rands).map (·.animal) =
      fisherYates rands (animals ++ animals) := by
  unfold createShuffledCards
  apply buildCards_animal_map
  rw [(fisherYates_perm rands (animals ++ animals)).length_eq]
  rfl

/-- C6: for every outcome of the random shuffle, the generated 16-card set
assigns cards to positions in the fixed enumeration order `A1..D4` (only
the animal values are permuted), its multiset of animal labels contains
each of the 8 animals exactly twice, and every card starts with
`isMatched` and `isRevealed` false. -/
theorem createShuffledCards_wellFormed (cardUuids : ℕ → String)
    (rands : ℕ → ℕ) :
    (createShuffledCards cardUuids rands).map (·.position) = validPositions ∧
    (∀ a ∈ animals,
      ((createShuffledCards cardUuids rands).map (·.animal)).count a = 2) ∧
    (∀ c ∈ createShuffledCards cardUuids rands,
      c.isMatched = false ∧ c.isRevealed = false) := by
  refine ⟨?_, ?_, ?_⟩
  · unfold createShuffledCards buildCards
    rw [List.map_map]
    exact List.enum_map_snd validPositions
  · intro a ha
    rw [createShuffledCards_animal_map]
    rw [(fisherYates_perm rands (animals ++ animals)).count_eq]
    fin_cases ha <;> decide
  · intro c hc
    unfold createShuffledCards buildCards at hc
    rw [List.mem_map] at hc
    obtain ⟨ip, _, rfl⟩ := hc
    exact ⟨rfl, rfl⟩

/-! ### Generic lemmas about `updateFirstP` -/

lemma updateFirstP_length (q : α → Bool) (f : α → α) :
    ∀ l : List α, (updateFirstP q f l).length = l.length := by
  intro l
  induction l with
  | nil => rfl
  | cons x xs ih =>
    unfold updateFirstP
    by_cases h : q x = true
    · simp [h]
    · simp only [Bool.not_eq_true] at h
      simp [h, ih]

lemma find?_updateFirstP_self (q : α → Bool) (f : α → α)
    (hq : ∀ x, q (f x) = q x) :
    ∀ l : List α, (updateFirstP q f l).find? q = (l.find? q).map f := by
  intro l
  induction l with
  | nil => rfl
  | cons x xs ih =>
    unfold updateFirstP
    by_cases h : q x = true
    · simp only [if_pos h]
      rw [List.find?_cons_of_pos _ (by rw [hq]; exact h),
        List.find?_cons_of_pos _ h]
      rfl
    · simp only [Bool.not_eq_true] at h
      rw [if_neg (show ¬(q x = true) by simp [h])]
      rw [List.find?_cons_of_neg _ (by simp [h]),
        List.find?_cons_of_neg _ (by simp [h])]
      exact ih

lemma find?_updateFirstP_other (q r : α → Bool) (f : α → α)
    (hr : ∀ x, r (f x) = r x) (hqr : ∀ x, q x = true → r x = false) :
    ∀ l : List α, (updateFirstP q f l).find? r = l.find? r := by
  intro l
  induction l with
  | nil => rfl
  | cons x xs ih =>
    unfold updateFirstP
    by_cases h : q x = true
    · simp only [if_pos h]
      rw [List.find?_cons_of_neg _ (by rw [hr]; simp [hqr x h]),
        List.find?_cons_of_neg _ (by simp [hqr x h])]
    · simp only [Bool.not_eq_true] at h
      rw [if_neg (show ¬(q x = true) by simp [h])]
      by_cases hrx : r x = true
      · rw [List.find?_cons_of_pos _ hrx, List.find?_cons_of_pos _ hrx]
      · simp only [Bool.not_eq_true] at hrx
        rw [List.find?_cons_of_neg _ (by simp [hrx]),
          List.find?_cons_of_neg _ (by simp [hrx])]
        exact ih

lemma countP_updateFirstP_pres (q : α → Bool) (f : α → α) (p : α → Bool)
    (hp : ∀ x, p (f x) = p x) :
    ∀ l : List α, (updateFirstP q f l).countP p = l.countP p := by
  intro l
  induction l with
  | nil => rfl
  | cons x xs ih =>
    unfold updateFirstP
    by_cases h : q x = true
    · simp [h, List.countP_cons, hp]
    · simp only [Bool.not_eq_true] at h
      simp [h, List.countP_cons, ih]

lemma countP_updateFirstP_incr (q : α → Bool) (f : α → α) (p : α → Bool)
    {x : α} (hx : p x = false) (hfx : p (f x) = true) :
    ∀ l : List α, l.find? q = some x →
      (updateFirstP q f l).countP p = l.countP p + 1 := by
  intro l
  induction l with
  | nil => intro h; simp at h
  | cons a t ih =>
    intro hfind
    unfold updateFirstP
    by_cases h : q a = true
    · rw [List.find?_cons_of_pos _ h] at hfind
      obtain rfl : a = x := by simpa using hfind
      simp [h, List.countP_cons, hx, hfx]
    · simp only [Bool.not_eq_true] at h
      rw [List.find?_cons_of_neg _ (by simp [h])] at hfind
      rw [if_neg (show ¬(q a = true) by simp [h])]
      simp only [List.countP_cons, ih hfind]
      ring

/-! ### Structural facts about `validateCardPositions`, `applyMove`,
`makeMoveGame` -/

lemma validateCardPositions_ok_elim {ps : List String} {p0 p1 : String}
    (h : validateCardPositions ps = .ok (p0, p1)) :
    ps = [p0, p1] ∧ (p0 == p1) = false ∧
      p0 ∈ validPositions ∧ p1 ∈ validPositions := by
  match ps with
  | [] => exact absurd h (by simp [validateCardPositions])
  | [a] => exact absurd h (by simp [validateCardPositions])
  | a :: b :: c :: rest => exact absurd h (by simp [validateCardPositions])
  | [a, b] =>
    simp only [validateCardPositions] at h
    by_cases hab : (a == b) = true
    · rw [if_pos hab] at h
      exact Except.noConfusion h
    · rw [if_neg hab] at h
      by_cases hre : (!(matchesPositionRegex a && matchesPositionRegex b)) = true
      · rw [if_pos hre] at h
        exact Except.noConfusion h
      · rw [if_neg hre] at h
        by_cases hco :
            (!(validPositions.contains a && validPositions.contains b)) = true
        · rw [if_pos hco] at h
          exact Except.noConfusion h
        · rw [if_neg hco] at h
          simp only [Except.ok.injEq, Prod.mk.injEq] at h
          obtain ⟨rfl, rfl⟩ := h
          simp only [Bool.not_eq_true, Bool.not_eq_false',
            Bool.and_eq_true] at hco
          refine ⟨rfl, by simpa using hab, ?_, ?_⟩
          · simpa using hco.1
          · simpa using hco.2

lemma posMatch_disjoint {p0 p1 : String} (hne : p0 ≠ p1) :
    ∀ x, posMatch p0 x = true → posMatch p1 x = false := by
  intro x hx
  unfold posMatch at hx ⊢
  rw [beq_iff_eq] at hx
  rw [beq_eq_false_iff_ne, hx]
  exact hne

lemma find?_twoPhase_left (f : Card → Card)
    (hpos : ∀ p x, posMatch p (f x) = posMatch p x)
    {p0 p1 : String} (hne : p0 ≠ p1) (cards : List Card) :
    (twoPhase f p0 p1 cards).find? (posMatch p0) =
      (cards.find? (posMatch p0)).map f := by
  unfold twoPhase
  rw [find?_updateFirstP_other (posMatch p1) (posMatch p0) f (hpos p0)
    (posMatch_disjoint (Ne.symm hne))]
  exact find?_updateFirstP_self (posMatch p0) f (hpos p0) cards

lemma find?_twoPhase_right (f : Card → Card)
    (hpos : ∀ p x, posMatch p (f x) = posMatch p x)
    {p0 p1 : String} (hne : p0 ≠ p1) (cards : List Card) :
    (twoPhase f p0 p1 cards).find? (posMatch p1) =
      (cards.find? (posMatch p1)).map f := by
  unfold twoPhase
  rw [find?_updateFirstP_self (posMatch p1) f (hpos p1)]
  rw [find?_updateFirstP_other (posMatch p0) (posMatch p1) f (hpos p1)
    (posMatch_disjoint hne)]

lemma twoPhase_length (f : Card → Card) (p0 p1 : String) (cards : List Card) :
    (twoPhase f p0 p1 cards).length = cards.length := by
  unfold twoPhase
  rw [updateFirstP_length, updateFirstP_length]

lemma posMatch_revealCard (p : String) : ∀ x, posMatch p (revealCard x) = posMatch p x :=
  fun _ => rfl

lemma posMatch_matchCard (p : String) : ∀ x, posMatch p (matchCard x) = posMatch p x :=
  fun _ => rfl

lemma twoPhase_reveal_matchedCount (p0 p1 : String) (cards : List Card) :
    matchedCount (twoPhase revealCard p0 p1 cards) = matchedCount cards := by
  unfold twoPhase matchedCount
  rw [countP_updateFirstP_pres (posMatch p1) revealCard
      (fun c => c.isMatched) (fun _ => rfl),
    countP_updateFirstP_pres (posMatch p0) revealCard
      (fun c => c.isMatched) (fun _ => rfl)]

lemma twoPhase_match_matchedCount {p0 p1 : String} {c1 c2 : Card}
    (hne : p0 ≠ p1) {cards : List Card}
    (hf1 : cards.find? (posMatch p0) = some c1)
    (hf2 : cards.find? (posMatch p1) = some c2)
    (hm1 : c1.isMatched = false) (hm2 : c2.isMatched = false) :
    matchedCount (twoPhase matchCard p0 p1 cards) = matchedCount cards + 2 := by
  unfold twoPhase matchedCount
  have hstep1 :
      (updateFirstP (posMatch p0) matchCard cards).countP (·.isMatched) =
        cards.countP (·.isMatched) + 1 :=
    countP_updateFirstP_incr (posMatch p0) matchCard _ hm1 rfl cards hf1
  have hf2' : (updateFirstP (posMatch p0) matchCard cards).find? (posMatch p1)
      = some c2 := by
    rw [find?_updateFirstP_other (posMatch p0) (posMatch p1) matchCard
      (posMatch_matchCard p1) (posMatch_disjoint hne)]
    exact hf2
  have hstep2 :
      (updateFirstP (posMatch p1) matchCard
        (updateFirstP (posMatch p0) matchCard cards)).countP (·.isMatched) =
        (updateFirstP (posMatch p0) matchCard cards).countP (·.isMatched) + 1 :=
    countP_updateFirstP_incr (posMatch p1) matchCard _ hm2 rfl _ hf2'
  omega

lemma makeMoveGame_ok_elim {g : Game} {ps : List String} {now : ℤ}
    {g2 : Game} {r : MoveResult}
    (h : makeMoveGame g ps now = .ok (g2, r)) :
    ∃ p0 p1 c1 c2,
      ps = [p0, p1] ∧ g.isCompleted = false ∧ p0 ≠ p1 ∧
      p0 ∈ validPositions ∧ p1 ∈ validPositions ∧
      g.cards.find? (posMatch p0) = some c1 ∧
      g.cards.find? (posMatch p1) = some c2 ∧
      c1.isMatched = false ∧ c2.isMatched = false ∧
      (g2, r) = applyMove g p0 p1 c1 c2 now := by
  unfold makeMoveGame at h
  split at h
  · exact Except.noConfusion h
  · rename_i hc
    split at h
    · exact Except.noConfusion h
    · rename_i p0 p1 hv
      obtain ⟨hps, hne, hv0, hv1⟩ := validateCardPositions_ok_elim hv
      split at h
      · rename_i c1 c2 hf1 hf2
        split at h
        · exact Except.noConfusion h
        · rename_i hm
          simp only [Bool.or_eq_true, Bool.not_eq_true] at hm
          push_neg at hm
          refine ⟨p0, p1, c1, c2, hps, by simpa using hc, by simpa using hne,
            hv0, hv1, hf1, hf2, ?_, ?_, ?_⟩
          · cases h1 : c1.isMatched with
            | false => rfl
            | true => exact absurd h1 (by simpa using hm.1)
          · cases h2 : c2.isMatched with
            | false => rfl
            | true => exact absurd h2 (by simpa using hm.2)
          · simpa using h.symm
      · exact Except.noConfusion h

lemma createShuffledCards_flags (cardUuids : ℕ → String) (rands : ℕ → ℕ) :
    ∀ c ∈ createShuffledCards cardUuids rands,
      c.isMatched = false ∧ c.isRevealed = false := by
  intro c hc
  unfold createShuffledCards buildCards at hc
  rw [List.mem_map] at hc
  obtain ⟨ip, _, rfl⟩ := hc
  exact ⟨rfl, rfl⟩

lemma createShuffledCards_matchedCount (cardUuids : ℕ → String)
    (rands : ℕ → ℕ) :
    matchedCount (createShuffledCards cardUuids rands) = 0 := by
  unfold matchedCount
  rw [List.countP_eq_zero]
  intro c hc
  simp [(createShuffledCards_flags cardUuids rands c hc).1]

/-! ### C10: counter/log/matched-count invariant of reachable sessions -/

/-- C10: in every session state reachable through `createGame` followed by
any sequence of successful `makeMove` calls, the attempt counter equals the
length of the moves log, and twice the length of `matchedPairs` equals the
number of cards whose `isMatched` flag is true. -/
theorem gameReachable_attempts_moves_matchedPairs (g : Game)
    (h : GameReachable g) :
    g.attempts = g.moves.length ∧
      2 * g.matchedPairs.length = matchedCount g.cards := by
  induction h with
  | created key cardUuids rands now =>
    exact ⟨rfl, by simp [freshGame, createShuffledCards_matchedCount]⟩
  | step g g2 ps now r hg hmove ih =>
    obtain ⟨p0, p1, c1, c2, hps, hC, hne, hv0, hv1, hf1, hf2, hm1, hm2, happ⟩ :=
      makeMoveGame_ok_elim hmove
    have hg2 : g2 = (applyMove g p0 p1 c1 c2 now).1 := congrArg Prod.fst happ
    by_cases hM : (c1.animal == c2.animal) = true
    · have hcards : ((applyMove g p0 p1 c1 c2 now).1).cards =
          twoPhase matchCard p0 p1 (twoPhase revealCard p0 p1 g.cards) := by
        simp [applyMove, hM]
      have hmoves : ((applyMove g p0 p1 c1 c2 now).1).moves.length =
          g.moves.length + 1 := by
        simp [applyMove, hM]
      have hatt : ((applyMove g p0 p1 c1 c2 now).1).attempts =
          g.attempts + 1 := by
        simp [applyMove, hM]
      have hpairs : ((applyMove g p0 p1 c1 c2 now).1).matchedPairs =
          g.matchedPairs ++ [[p0, p1]] := by
        simp [applyMove, hM]
      have hfR1 : (twoPhase revealCard p0 p1 g.cards).find? (posMatch p0) =
          some (revealCard c1) := by
        rw [find?_twoPhase_left revealCard posMatch_revealCard hne, hf1]
        rfl
      have hfR2 : (twoPhase revealCard p0 p1 g.cards).find? (posMatch p1) =
          some (revealCard c2) := by
        rw [find?_twoPhase_right revealCard posMatch_revealCard hne, hf2]
        rfl
      have hmc : matchedCount (((applyMove g p0 p1 c1 c2 now).1).cards) =
          matchedCount g.cards + 2 := by
        rw [hcards,
          twoPhase_match_matchedCount hne hfR1 hfR2 hm1 hm2,
          twoPhase_reveal_matchedCount]
      rw [hg2]
      refine ⟨by rw [hatt, hmoves, ih.1], ?_⟩
      rw [hmc, hpairs]
      simp only [List.length_append, List.length_cons, List.length_nil]
      omega
    · simp only [Bool.not_eq_true] at hM
      have hcards : ((applyMove g p0 p1 c1 c2 now).1).cards =
          twoPhase revealCard p0 p1 g.cards := by
        simp [applyMove, hM]
      have hmoves : ((applyMove g p0 p1 c1 c2 now).1).moves.length =
          g.moves.length + 1 := by
        simp [applyMove, hM]
      have hatt : ((applyMove g p0 p1 c1 c2 now).1).attempts =
          g.attempts + 1 := by
        simp [applyMove, hM]
      have hpairs : ((applyMove g p0 p1 c1 c2 now).1).matchedPairs =
          g.matchedPairs := by
        simp [applyMove, hM]
      rw [hg2]
      refine ⟨by rw [hatt, hmoves, ih.1], ?_⟩
      rw [hpairs, hcards, twoPhase_reveal_matchedCount]
      exact ih.2

/-- Witness for C10 at a freshly created session. -/
theorem gameReachable_attempts_moves_matchedPairs_witness :
    (freshGame "k" (fun _ => "") (fun _ => 0) 0).attempts =
      (freshGame "k" (fun _ => "") (fun _ => 0) 0).moves.length ∧
    2 * (freshGame "k" (fun _ => "") (fun _ => 0) 0).matchedPairs.length =
      matchedCount (freshGame "k" (fun _ => "") (fun _ => 0) 0).cards :=
  gameReachable_attempts_moves_matchedPairs _
    (GameReachable.created "k" (fun _ => "") (fun _ => 0) 0)

/-! ### C1: behaviour of a valid move -/

lemma matchesPositionRegex_of_mem {p : String} (h : p ∈ validPositions) :
    matchesPositionRegex p = true := by
  fin_cases h <;> decide

lemma contains_of_mem {p : String} (h : p ∈ validPositions) :
    validPositions.contains p = true := by
  simpa using h

lemma validateCardPositions_ok_intro {p0 p1 : String} (hne : p0 ≠ p1)
    (hv0 : p0 ∈ validPositions) (hv1 : p1 ∈ validPositions) :
    validateCardPositions [p0, p1] = .ok (p0, p1) := by
  simp only [validateCardPositions]
  rw [if_neg (show ¬((p0 == p1) = true) by simp [hne])]
  rw [if_neg (show
    ¬((!(matchesPositionRegex p0 && matchesPositionRegex p1)) = true) by
      simp [matchesPositionRegex_of_mem hv0, matchesPositionRegex_of_mem hv1])]
  rw [if_neg (show
    ¬((!(validPositions.contains p0 && validPositions.contains p1)) = true) by
      rw [contains_of_mem hv0, contains_of_mem hv1]
      simp)]

lemma makeMoveGame_run {g : Game} {p0 p1 : String} {c1 c2 : Card} (now : ℤ)
    (hC : g.isCompleted = false) (hne : p0 ≠ p1)
    (hv0 : p0 ∈ validPositions) (hv1 : p1 ∈ validPositions)
    (hf1 : g.cards.find? (posMatch p0) = some c1)
    (hf2 : g.cards.find? (posMatch p1) = some c2)
    (hm1 : c1.isMatched = false) (hm2 : c2.isMatched = false) :
    makeMoveGame g [p0, p1] now = .ok (applyMove g p0 p1 c1 c2 now) := by
  unfold makeMoveGame
  rw [if_neg (show ¬(g.isCompleted = true) by simp [hC])]
  rw [validateCardPositions_ok_intro hne hv0 hv1]
  simp only [hf1, hf2]
  rw [if_neg (show ¬((c1.isMatched || c2.isMatched) = true) by
    simp [hm1, hm2])]

lemma all_isMatched_iff (cards : List Card) :
    cards.all (·.isMatched) = true ↔ matchedCount cards = cards.length := by
  unfold matchedCount
  rw [List.all_eq_true, List.countP_eq_length]

/-- C1: for a non-completed session and two distinct valid positions whose
cards are both unmatched, `makeMove` succeeds, marks both cards revealed,
appends exactly one move record (positions, labels, match flag, timestamp),
and increments the attempt counter; on equal labels it marks both cards
matched and appends the pair; completion (`isCompleted` and `endTime`)
happens exactly when all 16 cards are matched, equivalently after exactly 8
successful matches, and `isCompleted` stays false after fewer. -/
theorem makeMove_valid_pair_behavior
    (g : Game) (p0 p1 : String) (c1 c2 : Card) (now : ℤ)
    (hC : g.isCompleted = false)
    (hv0 : p0 ∈ validPositions) (hv1 : p1 ∈ validPositions) (hne : p0 ≠ p1)
    (hf1 : g.cards.find? (posMatch p0) = some c1)
    (hf2 : g.cards.find? (posMatch p1) = some c2)
    (hm1 : c1.isMatched = false) (hm2 : c2.isMatched = false)
    (hlen : g.cards.length = 16)
    (hinv : 2 * g.matchedPairs.length = matchedCount g.cards) :
    ∃ g2 r, makeMoveGame g [p0, p1] now = .ok (g2, r) ∧
      g2.moves = g.moves ++
        [⟨[p0, p1], [c1.animal, c2.animal], c1.animal == c2.animal, now⟩] ∧
      g2.attempts = g.attempts + 1 ∧
      (g2.cards.find? (posMatch p0)).map (·.isRevealed) = some true ∧
      (g2.cards.find? (posMatch p1)).map (·.isRevealed) = some true ∧
      (if c1.animal = c2.animal then
          g2.matchedPairs = g.matchedPairs ++ [[p0, p1]] ∧
          (g2.cards.find? (posMatch p0)).map (·.isMatched) = some true ∧
          (g2.cards.find? (posMatch p1)).map (·.isMatched) = some true ∧
          matchedCount g2.cards = matchedCount g.cards + 2
        else
          g2.matchedPairs = g.matchedPairs ∧
          matchedCount g2.cards = matchedCount g.cards) ∧
      (g2.isCompleted = true ↔ matchedCount g2.cards = 16) ∧
      (g2.isCompleted = true ↔ g2.matchedPairs.length = 8) ∧
      (g2.isCompleted = true → g2.endTime = some now) ∧
      (g2.isCompleted = false → g2.endTime = g.endTime) := by
  have hrun := makeMoveGame_run now hC hne hv0 hv1 hf1 hf2 hm1 hm2
  refine ⟨(applyMove g p0 p1 c1 c2 now).1, (applyMove g p0 p1 c1 c2 now).2,
    by rw [hrun], ?_⟩
  have hfR1 : (twoPhase revealCard p0 p1 g.cards).find? (posMatch p0) =
      some (revealCard c1) := by
    rw [find?_twoPhase_left revealCard posMatch_revealCard hne, hf1]; rfl
  have hfR2 : (twoPhase revealCard p0 p1 g.cards).find? (posMatch p1) =
      some (revealCard c2) := by
    rw [find?_twoPhase_right revealCard posMatch_revealCard hne, hf2]; rfl
  have hmcR : matchedCount (twoPhase revealCard p0 p1 g.cards) =
      matchedCount g.cards :=
    twoPhase_reveal_matchedCount p0 p1 g.cards
  by_cases hM : (c1.animal == c2.animal) = true
  · -- matching move
    have hMp : c1.animal = c2.animal := by simpa using hM
    have hcards : ((applyMove g p0 p1 c1 c2 now).1).cards =
        twoPhase matchCard p0 p1 (twoPhase revealCard p0 p1 g.cards) := by
      simp [applyMove, hM]
    have hfM1 : ((applyMove g p0 p1 c1 c2 now).1).cards.find? (posMatch p0) =
        some (matchCard (revealCard c1)) := by
      rw [hcards, find?_twoPhase_left matchCard posMatch_matchCard hne, hfR1]
      rfl
    have hfM2 : ((applyMove g p0 p1 c1 c2 now).1).cards.find? (posMatch p1) =
        some (matchCard (revealCard c2)) := by
      rw [hcards, find?_twoPhase_right matchCard posMatch_matchCard hne, hfR2]
      rfl
    have hmc : matchedCount ((applyMove g p0 p1 c1 c2 now).1).cards =
        matchedCount g.cards + 2 := by
      rw [hcards, twoPhase_match_matchedCount hne hfR1 hfR2 hm1 hm2, hmcR]
    have hlen2 : ((applyMove g p0 p1 c1 c2 now).1).cards.length = 16 := by
      rw [hcards, twoPhase_length, twoPhase_length, hlen]
    have hpairs : ((applyMove g p0 p1 c1 c2 now).1).matchedPairs =
        g.matchedPairs ++ [[p0, p1]] := by
      simp [applyMove, hM]
    by_cases hall : (twoPhase matchCard p0 p1
        (twoPhase revealCard p0 p1 g.cards)).all (·.isMatched) = true
    · -- the match completes the game
      have hcomp : ((applyMove g p0 p1 c1 c2 now).1).isCompleted = true := by
        simp [applyMove, hM, hall]
      have hend : ((applyMove g p0 p1 c1 c2 now).1).endTime = some now := by
        simp [applyMove, hM, hall]
      have hmc16 : matchedCount ((applyMove g p0 p1 c1 c2 now).1).cards = 16 := by
        rw [← hlen2, hcards]
        rw [all_isMatched_iff] at hall
        exact hall
      refine ⟨by simp [applyMove, hM], by simp [applyMove, hM], ?_, ?_, ?_, ?_,
        ?_, ?_, ?_⟩
      · rw [hfM1]; rfl
      · rw [hfM2]; rfl
      · rw [if_pos hMp]
        exact ⟨hpairs, by rw [hfM1]; rfl, by rw [hfM2]; rfl, hmc⟩
      · rw [hcomp, hmc16]
        simp
      · rw [hcomp, hpairs]
        have : g.matchedPairs.length + 1 = 8 := by
          rw [hmc16] at hmc
          omega
        simp [this]
      · intro _
        exact hend
      · intro hx
        rw [hcomp] at hx
        exact absurd hx (by simp)
    · -- the match does not complete the game
      simp only [Bool.not_eq_true] at hall
      have hcomp : ((applyMove g p0 p1 c1 c2 now).1).isCompleted = false := by
        simp [applyMove, hM, hall, hC]
      have hend : ((applyMove g p0 p1 c1 c2 now).1).endTime = g.endTime := by
        simp [applyMove, hM, hall]
      have hmcne : matchedCount ((applyMove g p0 p1 c1 c2 now).1).cards ≠ 16 := by
        intro hx
        have hallT : ((applyMove g p0 p1 c1 c2 now).1).cards.all (·.isMatched)
            = true := by
          rw [all_isMatched_iff, hlen2]
          exact hx
        rw [hcards] at hallT
        rw [hallT] at hall
        exact Bool.noConfusion hall
      refine ⟨by simp [applyMove, hM], by simp [applyMove, hM], ?_, ?_, ?_, ?_,
        ?_, ?_, ?_⟩
      · rw [hfM1]; rfl
      · rw [hfM2]; rfl
      · rw [if_pos hMp]
        exact ⟨hpairs, by rw [hfM1]; rfl, by rw [hfM2]; rfl, hmc⟩
      · rw [hcomp]
        constructor
        · intro hx; exact absurd hx (by simp)
        · intro hx; exact absurd hx hmcne
      · rw [hcomp, hpairs]
        constructor
        · intro hx; exact absurd hx (by simp)
        · intro hx
          simp only [List.length_append, List.length_cons, List.length_nil] at hx
          apply absurd _ hmcne
          rw [hmc]
          omega
      · intro hx
        rw [hcomp] at hx
        exact absurd hx (by simp)
      · intro _
        exact hend
  · -- non-matching move
    simp only [Bool.not_eq_true] at hM
    have hMp : ¬(c1.animal = c2.animal) := by simpa using hM
    have hcards : ((applyMove g p0 p1 c1 c2 now).1).cards =
        twoPhase revealCard p0 p1 g.cards := by
      simp [applyMove, hM]
    have hcomp : ((applyMove g p0 p1 c1 c2 now).1).isCompleted = false := by
      simp [applyMove, hM, hC]
    have hmc : matchedCount ((applyMove g p0 p1 c1 c2 now).1).cards =
        matchedCount g.cards := by
      rw [hcards, hmcR]
    have hlen2 : ((applyMove g p0 p1 c1 c2 now).1).cards.length = 16 := by
      rw [hcards, twoPhase_length, hlen]
    have hnotall : matchedCount ((applyMove g p0 p1 c1 c2 now).1).cards ≠ 16 := by
      intro hx
      have hall : ((applyMove g p0 p1 c1 c2 now).1).cards.all (·.isMatched)
          = true := by
        rw [all_isMatched_iff, hlen2]
        exact hx
      rw [List.all_eq_true] at hall
      have hmem : revealCard c1 ∈ ((applyMove g p0 p1 c1 c2 now).1).cards := by
        apply List.mem_of_find?_eq_some
        rw [hcards]
        exact hfR1
      have hrev := hall _ hmem
      simp only [revealCard] at hrev
      rw [hm1] at hrev
      exact Bool.noConfusion hrev
    refine ⟨by simp [applyMove, hM], by simp [applyMove, hM], ?_, ?_, ?_, ?_,
      ?_, ?_, ?_⟩
    · rw [hcards, hfR1]; rfl
    · rw [hcards, hfR2]; rfl
    · rw [if_neg hMp]
      exact ⟨by simp [applyMove, hM], hmc⟩
    · rw [hcomp]
      constructor
      · intro hx; exact absurd hx (by simp)
      · intro hx; exact absurd hx hnotall
    · rw [hcomp]
      have hpairs : ((applyMove g p0 p1 c1 c2 now).1).matchedPairs =
          g.matchedPairs := by
        simp [applyMove, hM]
      constructor
      · intro hx; exact absurd hx (by simp)
      · intro hx
        rw [hpairs] at hx
        apply absurd _ hnotall
        rw [hmc, ← hinv, hx]
    · intro hx
      rw [hcomp] at hx
      exact absurd hx (by simp)
    · intro _
      simp [applyMove, hM]

/-- Witness for C1: the matching move `["A1", "A2"]` on the concrete fresh
session `plainGame` (both cards carry "Dog"). -/
theorem makeMove_valid_pair_behavior_witness :
    ∃ g2 r, makeMoveGame plainGame ["A1", "A2"] 5 = .ok (g2, r) ∧
      g2.moves = plainGame.moves ++
        [⟨["A1", "A2"], ["Dog", "Dog"], ("Dog" == "Dog"), 5⟩] ∧
      g2.attempts = plainGame.attempts + 1 ∧
      (g2.cards.find? (posMatch "A1")).map (·.isRevealed) = some true ∧
      (g2.cards.find? (posMatch "A2")).map (·.isRevealed) = some true ∧
      (if ("Dog" : String) = "Dog" then
          g2.matchedPairs = plainGame.matchedPairs ++ [["A1", "A2"]] ∧
          (g2.cards.find? (posMatch "A1")).map (·.isMatched) = some true ∧
          (g2.cards.find? (posMatch "A2")).map (·.isMatched) = some true ∧
          matchedCount g2.cards = matchedCount plainGame.cards + 2
        else
          g2.matchedPairs = plainGame.matchedPairs ∧
          matchedCount g2.cards = matchedCount plainGame.cards) ∧
      (g2.isCompleted = true ↔ matchedCount g2.cards = 16) ∧
      (g2.isCompleted = true ↔ g2.matchedPairs.length = 8) ∧
      (g2.isCompleted = true → g2.endTime = some 5) ∧
      (g2.isCompleted = false → g2.endTime = plainGame.endTime) :=
  makeMove_valid_pair_behavior plainGame "A1" "A2"
    ⟨"", "Dog", "A1", false, false⟩ ⟨"", "Dog", "A2", false, false⟩ 5
    rfl (by decide) (by decide) (by decide) rfl rfl rfl rfl rfl rfl

/-! ### C4: the exact BadRequest conditions of makeMove -/

lemma validateCardPositions_len_err {ps : List String} (h : ps.length ≠ 2) :
    validateCardPositions ps =
      .error (.badRequest "Must select exactly 2 cards") := by
  match ps with
  | [] => rfl
  | [a] => rfl
  | [a, b] => exact absurd rfl h
  | a :: b :: c :: rest => rfl

lemma validateCardPositions_error_elim {ps : List String} {e : ServiceError}
    (h : validateCardPositions ps = .error e) :
    ps.length ≠ 2 ∨ ∃ p0 p1, ps = [p0, p1] ∧
      (p0 = p1 ∨ matchesPositionRegex p0 = false ∨
        matchesPositionRegex p1 = false ∨
        p0 ∉ validPositions ∨ p1 ∉ validPositions) := by
  match ps with
  | [] => left; simp
  | [a] => left; simp
  | a :: b :: c :: rest => left; simp
  | [a, b] =>
    right
    refine ⟨a, b, rfl, ?_⟩
    simp only [validateCardPositions] at h
    by_cases hab : (a == b) = true
    · exact Or.inl (by simpa using hab)
    · rw [if_neg hab] at h
      by_cases hre : (!(matchesPositionRegex a && matchesPositionRegex b)) = true
      · have hre2 : matchesPositionRegex a = false ∨
            matchesPositionRegex b = false := by
          simpa using hre
        rcases hre2 with h2 | h2
        · exact Or.inr (Or.inl h2)
        · exact Or.inr (Or.inr (Or.inl h2))
      · rw [if_neg hre] at h
        by_cases hco :
            (!(validPositions.contains a && validPositions.contains b)) = true
        · have hco2 : a ∉ validPositions ∨ b ∉ validPositions := by
            simpa using hco
          rcases hco2 with h2 | h2
          · exact Or.inr (Or.inr (Or.inr (Or.inl h2)))
          · exact Or.inr (Or.inr (Or.inr (Or.inr h2)))
        · rw [if_neg hco] at h
          exact Except.noConfusion h

lemma find?_isSome_of_hasAll {g : Game} {p : String}
    (hwf : hasAllPositions g = true) (hp : p ∈ validPositions) :
    ∃ c, g.cards.find? (posMatch p) = some c := by
  unfold hasAllPositions at hwf
  rw [List.all_eq_true] at hwf
  have h := hwf p hp
  rcases hfind : g.cards.find? (posMatch p) with _ | c
  · rw [hfind] at h
    exact Bool.noConfusion h
  · exact ⟨c, rfl⟩

lemma makeMoveGame_badRequest_iff (g : Game) (ps : List String) (now : ℤ)
    (hwf : hasAllPositions g = true) :
    (∃ m, makeMoveGame g ps now = .error (.badRequest m)) ↔
      (g.isCompleted = true ∨ ps.length ≠ 2 ∨
        ∃ p0 p1, ps = [p0, p1] ∧
          (p0 = p1 ∨ matchesPositionRegex p0 = false ∨
            matchesPositionRegex p1 = false ∨
            p0 ∉ validPositions ∨ p1 ∉ validPositions ∨
            (∃ c, g.cards.find? (posMatch p0) = some c ∧ c.isMatched = true) ∨
            (∃ c, g.cards.find? (posMatch p1) = some c ∧ c.isMatched = true))) := by
  constructor
  · rintro ⟨m, h⟩
    unfold makeMoveGame at h
    split at h
    · rename_i hC
      exact Or.inl hC
    · split at h
      · rename_i e hv
        rcases validateCardPositions_error_elim hv with h2 | ⟨p0, p1, hps, hsub⟩
        · exact Or.inr (Or.inl h2)
        · refine Or.inr (Or.inr ⟨p0, p1, hps, ?_⟩)
          rcases hsub with h3 | h3 | h3 | h3 | h3
          · exact Or.inl h3
          · exact Or.inr (Or.inl h3)
          · exact Or.inr (Or.inr (Or.inl h3))
          · exact Or.inr (Or.inr (Or.inr (Or.inl h3)))
          · exact Or.inr (Or.inr (Or.inr (Or.inr (Or.inl h3))))
      · rename_i p0 p1 hv
        obtain ⟨hps, hne, hv0, hv1⟩ := validateCardPositions_ok_elim hv
        split at h
        · rename_i c1 c2 hf1 hf2
          split at h
          · rename_i hm
            refine Or.inr (Or.inr ⟨p0, p1, hps, ?_⟩)
            have hm2 : c1.isMatched = true ∨ c2.isMatched = true := by
              simpa using hm
            rcases hm2 with h2 | h2
            · exact Or.inr (Or.inr (Or.inr (Or.inr (Or.inr
                (Or.inl ⟨c1, hf1, h2⟩)))))
            · exact Or.inr (Or.inr (Or.inr (Or.inr (Or.inr
                (Or.inr ⟨c2, hf2, h2⟩)))))
          · exact Except.noConfusion h
        · rename_i hnone
          obtain ⟨c1, hf1⟩ := find?_isSome_of_hasAll hwf hv0
          obtain ⟨c2, hf2⟩ := find?_isSome_of_hasAll hwf hv1
          exact (hnone c1 c2 hf1 hf2).elim
  · intro hdisj
    by_cases hC : g.isCompleted = true
    · refine ⟨"Game is already completed", ?_⟩
      unfold makeMoveGame
      rw [if_pos hC]
    · rcases hdisj with h1 | h2 | ⟨p0, p1, rfl, hsub⟩
      · exact absurd h1 hC
      · refine ⟨"Must select exactly 2 cards", ?_⟩
        unfold makeMoveGame
        rw [if_neg hC, validateCardPositions_len_err h2]
      · unfold makeMoveGame
        rw [if_neg hC]
        by_cases hpq : p0 = p1
        · refine ⟨"Cannot select the same card twice", ?_⟩
          have hval : validateCardPositions [p0, p1] =
              .error (.badRequest "Cannot select the same card twice") := by
            simp only [validateCardPositions]
            rw [if_pos (show (p0 == p1) = true by simp [hpq])]
          rw [hval]
        · by_cases hre :
              (matchesPositionRegex p0 && matchesPositionRegex p1) = true
          · by_cases hco :
                (validPositions.contains p0 && validPositions.contains p1) = true
            · have hmem : p0 ∈ validPositions ∧ p1 ∈ validPositions := by
                simpa using hco
              have hmem0 := hmem.1
              have hmem1 := hmem.2
              rw [validateCardPositions_ok_intro hpq hmem0 hmem1]
              obtain ⟨c1, hf1⟩ := find?_isSome_of_hasAll hwf hmem0
              obtain ⟨c2, hf2⟩ := find?_isSome_of_hasAll hwf hmem1
              simp only [hf1, hf2]
              have hre12 : matchesPositionRegex p0 = true ∧
                  matchesPositionRegex p1 = true := by
                simpa using hre
              have hOr : c1.isMatched = true ∨ c2.isMatched = true := by
                rcases hsub with h3 | h3 | h3 | h3 | h3 | ⟨c, hc, hcm⟩ | ⟨c, hc, hcm⟩
                · exact absurd h3 hpq
                · rw [hre12.1] at h3
                  exact Bool.noConfusion h3
                · rw [hre12.2] at h3
                  exact Bool.noConfusion h3
                · exact absurd hmem0 h3
                · exact absurd hmem1 h3
                · rw [hf1] at hc
                  obtain rfl : c = c1 := by injection hc with h4; exact h4.symm
                  exact Or.inl hcm
                · rw [hf2] at hc
                  obtain rfl : c = c2 := by injection hc with h4; exact h4.symm
                  exact Or.inr hcm
              refine ⟨"Cannot select already matched cards", ?_⟩
              rw [if_pos (show (c1.isMatched || c2.isMatched) = true by
                rcases hOr with h3 | h3 <;> simp [h3])]
            · refine ⟨"Invalid card positions", ?_⟩
              have hval : validateCardPositions [p0, p1] =
                  .error (.badRequest "Invalid card positions") := by
                simp only [validateCardPositions]
                rw [if_neg (show ¬((p0 == p1) = true) by simp [hpq]),
                  if_neg (show ¬((!(matchesPositionRegex p0 &&
                    matchesPositionRegex p1)) = true) by simp [hre]),
                  if_pos (show (!(validPositions.contains p0 &&
                    validPositions.contains p1)) = true by
                      simp only [Bool.not_eq_true] at hco
                      rw [hco]
                      rfl)]
              rw [hval]
          · refine ⟨"Card positions must be in in the range A - D, 1 - 4.", ?_⟩
            have hval : validateCardPositions [p0, p1] =
                .error (.badRequest
                  "Card positions must be in in the range A - D, 1 - 4.") := by
              simp only [validateCardPositions]
              rw [if_neg (show ¬((p0 == p1) = true) by simp [hpq]),
                if_pos (show (!(matchesPositionRegex p0 &&
                  matchesPositionRegex p1)) = true by
                    simp only [Bool.not_eq_true] at hre
                    simp [hre])]
            rw [hval]

lemma validateCardPositions_error_badRequest {ps : List String}
    {e : ServiceError} (h : validateCardPositions ps = .error e) :
    ∃ m, e = .badRequest m := by
  match ps with
  | [] => exact ⟨"Must select exactly 2 cards", (Except.error.inj h).symm⟩
  | [a] => exact ⟨"Must select exactly 2 cards", (Except.error.inj h).symm⟩
  | a :: b :: c :: rest =>
    exact ⟨"Must select exactly 2 cards", (Except.error.inj h).symm⟩
  | [a, b] =>
    simp only [validateCardPositions] at h
    by_cases hab : (a == b) = true
    · rw [if_pos hab] at h
      exact ⟨"Cannot select the same card twice", (Except.error.inj h).symm⟩
    · rw [if_neg hab] at h
      by_cases hre : (!(matchesPositionRegex a && matchesPositionRegex b)) = true
      · rw [if_pos hre] at h
        exact ⟨"Card positions must be in in the range A - D, 1 - 4.",
          (Except.error.inj h).symm⟩
      · rw [if_neg hre] at h
        by_cases hco :
            (!(validPositions.contains a && validPositions.contains b)) = true
        · rw [if_pos hco] at h
          exact ⟨"Invalid card positions", (Except.error.inj h).symm⟩
        · rw [if_neg hco] at h
          exact Except.noConfusion h

lemma makeMoveGame_error_badRequest {g : Game} {ps : List String} {now : ℤ}
    {e : ServiceError} (h : makeMoveGame g ps now = .error e) :
    ∃ m, e = .badRequest m := by
  unfold makeMoveGame at h
  split at h
  · exact ⟨"Game is already completed", (Except.error.inj h).symm⟩
  · split at h
    · rename_i e2 hv
      obtain ⟨m, hm⟩ := validateCardPositions_error_badRequest hv
      refine ⟨m, ?_⟩
      rw [← Except.error.inj h]
      exact hm
    · rename_i p0 p1 hv
      split at h
      · split at h
        · exact ⟨"Cannot select already matched cards",
            (Except.error.inj h).symm⟩
        · exact Except.noConfusion h
      · exact ⟨"Invalid card positions", (Except.error.inj h).symm⟩

lemma makeMove_snd_iff_error (db : List Game) (key : String) (g : Game)
    (ps : List String) (now : ℤ) (e : ServiceError)
    (hkey : validSessionKey key = true)
    (hfound : findGameStore db key = some g) :
    (makeMove db key ps now).2 = .error e ↔
      makeMoveGame g ps now = .error e := by
  unfold makeMove
  rw [if_neg (show ¬((!validSessionKey key) = true) by simp [hkey])]
  simp only [hfound]
  cases hgame : makeMoveGame g ps now with
  | error e2 => simp
  | ok gr =>
    obtain ⟨g2, r⟩ := gr
    simp

/-- C5: whenever `makeMove` returns an error — unknown session key, completed
session, wrong card count, duplicate/malformed/out-of-range position, or an
already-matched card — the stored collection is left exactly as it was. -/
theorem makeMove_error_leaves_store (db : List Game) (key : String)
    (ps : List String) (now : ℤ) (e : ServiceError)
    (h : (makeMove db key ps now).2 = .error e) :
    (makeMove db key ps now).1 = db := by
  unfold makeMove at h ⊢
  by_cases hkey : (!validSessionKey key) = true
  · rw [if_pos hkey]
  · rw [if_neg hkey] at h ⊢
    cases hfound : findGameStore db key with
    | none => simp only [hfound]
    | some g =>
      simp only [hfound] at h ⊢
      cases hgame : makeMoveGame g ps now with
      | error e2 => simp only [hgame]
      | ok gr =>
        obtain ⟨g2, r⟩ := gr
        simp only [hgame] at h
        exact Except.noConfusion h

/-- Witness for C5: a move against an empty store errors (not-found) and
leaves the store empty. -/
theorem makeMove_error_leaves_store_witness :
    (makeMove [] "k1" ["A1", "A2"] 0).1 = [] :=
  makeMove_error_leaves_store [] "k1" ["A1", "A2"] 0
    (.notFound "Game not found") rfl

/-- C4: for an existing session, `makeMove` raises a BadRequest error — a
category distinct from the NotFound error used for unknown session keys —
exactly when the pair is not two positions, the positions are equal, a
position is malformed or outside the fixed 16-coordinate set, a selected
card is already matched, or the session is completed; in particular a pair
of distinct unmatched cards is accepted even if previously revealed. -/
theorem makeMove_badRequest_iff_conditions (db : List Game) (key : String)
    (g : Game) (ps : List String) (now : ℤ)
    (hkey : validSessionKey key = true)
    (hfound : findGameStore db key = some g)
    (hwf : hasAllPositions g = true) :
    ((∃ m, (makeMove db key ps now).2 = .error (.badRequest m)) ↔
      (g.isCompleted = true ∨ ps.length ≠ 2 ∨
        ∃ p0 p1, ps = [p0, p1] ∧
          (p0 = p1 ∨ matchesPositionRegex p0 = false ∨
            matchesPositionRegex p1 = false ∨
            p0 ∉ validPositions ∨ p1 ∉ validPositions ∨
            (∃ c, g.cards.find? (posMatch p0) = some c ∧ c.isMatched = true) ∨
            (∃ c, g.cards.find? (posMatch p1) = some c ∧ c.isMatched = true)))) ∧
    ∀ m, (makeMove db key ps now).2 ≠ .error (.notFound m) := by
  constructor
  · exact (exists_congr fun m =>
      makeMove_snd_iff_error db key g ps now (.badRequest m) hkey hfound).trans
      (makeMoveGame_badRequest_iff g ps now hwf)
  · intro m hcon
    have hgame := (makeMove_snd_iff_error db key g ps now
      (.notFound m) hkey hfound).mp hcon
    obtain ⟨m2, hm2⟩ := makeMoveGame_error_badRequest hgame
    exact ServiceError.noConfusion hm2

/-- Witness for C4: the duplicate pair `["A1", "A1"]` on the stored
`plainGame` is a BadRequest. -/
theorem makeMove_badRequest_iff_conditions_witness :
    ((∃ m, (makeMove [plainGame] "k1" ["A1", "A1"] 0).2 =
        .error (.badRequest m)) ↔
      (plainGame.isCompleted = true ∨ (["A1", "A1"] : List String).length ≠ 2 ∨
        ∃ p0 p1, (["A1", "A1"] : List String) = [p0, p1] ∧
          (p0 = p1 ∨ matchesPositionRegex p0 = false ∨
            matchesPositionRegex p1 = false ∨
            p0 ∉ validPositions ∨ p1 ∉ validPositions ∨
            (∃ c, plainGame.cards.find? (posMatch p0) = some c ∧
              c.isMatched = true) ∨
            (∃ c, plainGame.cards.find? (posMatch p1) = some c ∧
              c.isMatched = true)))) ∧
    ∀ m, (makeMove [plainGame] "k1" ["A1", "A1"] 0).2 ≠
      .error (.notFound m) :=
  makeMove_badRequest_iff_conditions [plainGame] "k1" plainGame
    ["A1", "A1"] 0 (by decide) rfl (by decide)

/-! ### C9: at most one active session per key -/

lemma countP_updateFirstP_le (q p : α → Bool) (f : α → α) :
    ∀ l : List α,
      (∀ x, l.find? q = some x → (p (f x) = true → p x = true)) →
      (updateFirstP q f l).countP p ≤ l.countP p := by
  intro l
  induction l with
  | nil => intro _; simp [updateFirstP]
  | cons a t ih =>
    intro h
    unfold updateFirstP
    by_cases hq : q a = true
    · have ha := h a (List.find?_cons_of_pos _ hq)
      rw [if_pos hq]
      simp only [List.countP_cons]
      by_cases hpf : p (f a) = true
      · simp [hpf, ha hpf]
      · have hpf2 : p (f a) = false := by simpa using hpf
        cases hpa : p a
        · simp [hpf2, hpa]
        · simp [hpf2, hpa]
    · have hq2 : q a = false := by simpa using hq
      rw [if_neg (by simp [hq2])]
      simp only [List.countP_cons]
      have h2 : ∀ x, t.find? q = some x → (p (f x) = true → p x = true) := by
        intro x hx
        exact h x (by rw [List.find?_cons_of_neg _ (by simp [hq2])]; exact hx)
      have := ih h2
      omega

lemma makeMoveGame_ok_key_completed {g : Game} {ps : List String} {now : ℤ}
    {g2 : Game} {r : MoveResult} (h : makeMoveGame g ps now = .ok (g2, r)) :
    g2.sessionKey = g.sessionKey ∧ g.isCompleted = false := by
  obtain ⟨p0, p1, c1, c2, _, hC, _, _, _, _, _, _, _, happ⟩ :=
    makeMoveGame_ok_elim h
  have hg2 : g2 = (applyMove g p0 p1 c1 c2 now).1 := congrArg Prod.fst happ
  subst hg2
  refine ⟨?_, hC⟩
  by_cases hM : (c1.animal == c2.animal) = true
  · simp [applyMove, hM]
  · simp only [Bool.not_eq_true] at hM
    simp [applyMove, hM]

/-- C9: in every reachable store, at most one non-completed session exists
per key, and `createGame` throws a client-input error whenever an active
session with the requested key already exists. -/
theorem activeSession_unique :
    (∀ db, Reachable db → ∀ key, activeCount db key ≤ 1) ∧
    (∀ (db : List Game) (k uuid : String) (cardUuids : ℕ → String)
        (rands : ℕ → ℕ) (now : ℤ), validSessionKey k = true →
      (∃ g ∈ db, g.sessionKey = k ∧ g.isCompleted = false) →
      ∃ m, (createGame db (some k) uuid cardUuids rands now).2 =
        .error (.badRequest m)) := by
  constructor
  · intro db hdb
    induction hdb with
    | init => intro key; simp [activeCount]
    | create db dtoKey uuid cardUuids rands now hdb ih =>
      intro key
      unfold createGame
      by_cases hcond :
          (keyProvided dtoKey && !validSessionKey (resolveKey dtoKey uuid)) = true
      · rw [if_pos hcond]
        exact ih key
      · rw [if_neg hcond]
        cases hfind : db.find? (fun g =>
            g.sessionKey == resolveKey dtoKey uuid && !g.isCompleted) with
        | some w => exact ih key
        | none =>
          show activeCount
            (db ++ [freshGame (resolveKey dtoKey uuid) cardUuids rands now])
            key ≤ 1
          unfold activeCount
          rw [List.countP_append]
          by_cases hkey : key = resolveKey dtoKey uuid
          · subst hkey
            have hzero : db.countP (fun g =>
                g.sessionKey == resolveKey dtoKey uuid && !g.isCompleted)
                = 0 := by
              rw [List.countP_eq_zero]
              intro x hx
              exact (List.find?_eq_none.mp hfind) x hx
            rw [hzero]
            simp [freshGame]
          · have hone : (List.countP (fun g =>
                g.sessionKey == key && !g.isCompleted)
                [freshGame (resolveKey dtoKey uuid) cardUuids rands now]) = 0 := by
              simp only [List.countP_cons, List.countP_nil]
              have : ((freshGame (resolveKey dtoKey uuid) cardUuids rands
                  now).sessionKey == key) = false := by
                simp only [freshGame]
                rw [beq_eq_false_iff_ne]
                exact fun hh => hkey hh.symm
              simp [this]
            rw [hone]
            have := ih key
            unfold activeCount at this
            omega
    | move db key2 positions now hdb ih =>
      intro key
      unfold makeMove
      by_cases hkv : (!validSessionKey key2) = true
      · rw [if_pos hkv]
        exact ih key
      · rw [if_neg hkv]
        split
        · exact ih key
        · rename_i g hfound
          split
          · exact ih key
          · rename_i g2 r hgame
            show activeCount
              (updateFirstP (fun x => x.sessionKey == key2) (fun _ => g2) db)
              key ≤ 1
            refine le_trans ?_ (ih key)
            unfold activeCount
            apply countP_updateFirstP_le
            intro x hx hpx
            have hxg : x = g := by
              unfold findGameStore at hfound
              rw [hfound] at hx
              injection hx with h4
              exact h4.symm
            subst hxg
            obtain ⟨hk2, hC⟩ := makeMoveGame_ok_key_completed hgame
            have h5 : (g2.sessionKey == key) = true ∧
                (!g2.isCompleted) = true := by
              simpa using hpx
            rw [hk2] at h5
            simp [h5.1, hC]
  · intro db k uuid cardUuids rands now hk hex
    have hkne : (k == "") = false := by
      unfold validSessionKey at hk
      have h6 : (!(k == "")) = true ∧ (!(jsTrim k == "")) = true := by
        simpa using hk
      simpa using h6.1
    have hres : resolveKey (some k) uuid = k := by
      simp only [resolveKey]
      rw [if_neg (show ¬((k == "") = true) by simp [hkne])]
    have hprov : keyProvided (some k) = true := by
      simp only [keyProvided]
      simp [hkne]
    unfold createGame
    rw [hres]
    rw [if_neg (show
      ¬((keyProvided (some k) && !validSessionKey k) = true) by
        simp [hprov, hk])]
    obtain ⟨g, hgmem, hgkey, hgcomp⟩ := hex
    have hfind : (db.find? (fun g =>
        g.sessionKey == k && !g.isCompleted)).isSome := by
      rw [List.find?_isSome]
      exact ⟨g, hgmem, by simp [hgkey, hgcomp]⟩
    cases hfound : db.find? (fun g => g.sessionKey == k && !g.isCompleted) with
    | none =>
      rw [hfound] at hfind
      simp at hfind
    | some w =>
      exact ⟨"Active game already exists for this session", rfl⟩

/-- Witness for C9: the empty store satisfies the invariant, and creating a
session under a key with an existing active session errors. -/
theorem activeSession_unique_witness :
    activeCount [] "k1" ≤ 1 ∧
    (∃ m, (createGame [plainGame] (some "k1") "u" (fun _ => "")
      (fun _ => 0) 0).2 = .error (.badRequest m)) :=
  ⟨activeSession_unique.1 [] Reachable.init "k1",
   activeSession_unique.2 [plainGame] "k1" "u" (fun _ => "") (fun _ => 0) 0
     (by decide) ⟨plainGame, by simp, rfl, rfl⟩⟩

/-! ### Sorting lemmas for the leaderboard -/

lemma gameLe_total (a b : Game) : gameLe a b = true ∨ gameLe b a = true := by
  unfold gameLe
  rcases lt_trichotomy a.attempts b.attempts with h | h | h
  · left; simp [h]
  · by_cases h2 : endTimeVal a ≤ endTimeVal b
    · left; simp [h, h2]
    · right
      simp [h, le_of_not_le h2]
  · right; simp [h]

lemma gameLe_trans {a b c : Game} (h1 : gameLe a b = true)
    (h2 : gameLe b c = true) : gameLe a c = true := by
  unfold gameLe at h1 h2 ⊢
  simp only [Bool.or_eq_true, Bool.and_eq_true, decide_eq_true_eq,
    beq_iff_eq] at h1 h2 ⊢
  rcases h1 with h1 | ⟨h1e, h1t⟩ <;> rcases h2 with h2 | ⟨h2e, h2t⟩
  · left; omega
  · left; omega
  · left; omega
  · right; exact ⟨by omega, le_trans h1t h2t⟩

lemma insertSorted_perm (x : Game) :
    ∀ l, (insertSorted x l).Perm (x :: l) := by
  intro l
  induction l with
  | nil => simp [insertSorted]
  | cons y ys ih =>
    unfold insertSorted
    by_cases h : gameLe x y = true
    · rw [if_pos h]
    · rw [if_neg h]
      exact (ih.cons y).trans (List.Perm.swap x y ys)

lemma sortGames_perm : ∀ l : List Game, (sortGames l).Perm l := by
  intro l
  induction l with
  | nil => simp [sortGames]
  | cons x xs ih =>
    unfold sortGames
    exact (insertSorted_perm x (sortGames xs)).trans (ih.cons x)

lemma pairwise_insertSorted (x : Game) :
    ∀ l, List.Pairwise (fun a b => gameLe a b = true) l →
      List.Pairwise (fun a b => gameLe a b = true) (insertSorted x l) := by
  intro l
  induction l with
  | nil => intro _; simp [insertSorted]
  | cons y ys ih =>
    intro hp
    rw [List.pairwise_cons] at hp
    obtain ⟨hy, hys⟩ := hp
    unfold insertSorted
    by_cases h : gameLe x y = true
    · rw [if_pos h]
      rw [List.pairwise_cons]
      refine ⟨?_, List.pairwise_cons.mpr ⟨hy, hys⟩⟩
      intro z hz
      rcases List.mem_cons.mp hz with rfl | hz2
      · exact h
      · exact gameLe_trans h (hy z hz2)
    · rw [if_neg h]
      rw [List.pairwise_cons]
      constructor
      · intro z hz
        have hz3 := (insertSorted_perm x ys).mem_iff.mp hz
        rcases List.mem_cons.mp hz3 with h6 | hz4
        · rw [h6]
          rcases gameLe_total x y with h5 | h5
          · exact absurd h5 h
          · exact h5
        · exact hy z hz4
      · exact ih hys

lemma sortGames_sorted :
    ∀ l, List.Pairwise (fun a b => gameLe a b = true) (sortGames l) := by
  intro l
  induction l with
  | nil => simp [sortGames]
  | cons x xs ih => exact pairwise_insertSorted x (sortGames xs) ih

lemma timeOk_of_no_filter {filter : Option LeaderboardFilter}
    (h : hasTimeFilter filter = false) (g : Game) : timeOk filter g = true := by
  cases filter with
  | none => rfl
  | some f =>
    simp only [hasTimeFilter] at h
    have h1 : f.minCompletionTime = none := by
      rcases hmin : f.minCompletionTime with _ | v
      · rfl
      · rw [hmin] at h
        simp at h
    have h2 : f.maxCompletionTime = none := by
      rcases hmax : f.maxCompletionTime with _ | v
      · rfl
      · rw [hmax] at h
        simp at h
    simp only [timeOk]
    rw [h1, h2]
    rfl

/-! ### C7: what getTopGames returns -/

lemma getTopGames_ok_elim {db : List Game} {limit page : ℤ}
    {filter : Option LeaderboardFilter} {res : PaginatedLeaderboard}
    (h : getTopGames db limit page filter = .ok res) :
    res.data = (filteredWindow db limit page filter).map mkEntry := by
  unfold getTopGames at h
  split at h
  · exact Except.noConfusion h
  · split at h
    · exact Except.noConfusion h
    · split at h
      · exact Except.noConfusion h
      · rw [← Except.ok.inj h]

/-- C7 counterexample: with `limit = 1`, `page = 1` and a
`maxCompletionTime = 1000` filter over two completed sessions, the slow
session (attempts 1, 5000 ms) occupies the page window and is then removed
by the in-process time filter, so the result page is empty even though the
fast session (attempts 2, 100 ms) satisfies every filter — the time-range
filtering is applied after the page window, not before. -/
theorem getTopGames_time_filter_after_pagination :
    getTopGames [cGameSlow, cGameFast] 1 1 (some cTimeFilter) =
      .ok ⟨[], ⟨1, 1, 2, 2, true, false⟩⟩ ∧
    cGameFast.isCompleted = true ∧
    attemptsOk (some cTimeFilter) cGameFast = true ∧
    timeOk (some cTimeFilter) cGameFast = true := by
  exact ⟨rfl, rfl, rfl, rfl⟩

/-- C7 amended: on success, every returned leaderboard entry comes from a
completed stored session that satisfies the attempt-range and the
completion-time-range filters and carries
`score = calculateScore(attempts, endTime − startTime)` (via `mkEntry`),
and the page is sorted ascending by attempts and then by end time; however
the completion-time filters are applied to the page window after
pagination, so time-filtered-out sessions are not backfilled and `total`
ignores the time filters. -/
theorem getTopGames_entries_sorted_filtered (db : List Game)
    (limit page : ℤ) (filter : Option LeaderboardFilter)
    (res : PaginatedLeaderboard)
    (h : getTopGames db limit page filter = .ok res) :
    (∀ e ∈ res.data, ∃ g, g ∈ db ∧ g.isCompleted = true ∧
      attemptsOk filter g = true ∧ timeOk filter g = true ∧ e = mkEntry g) ∧
    List.Pairwise (fun a b => entryLe a b = true) res.data := by
  have hdata := getTopGames_ok_elim h
  have hsubW : (pageWindow db limit page filter).Sublist
      (sortGames (db.filter (completedFilter filter))) :=
    (List.take_sublist _ _).trans (List.drop_sublist _ _)
  constructor
  · intro e he
    rw [hdata] at he
    rw [List.mem_map] at he
    obtain ⟨g, hgf, rfl⟩ := he
    have hgW : g ∈ pageWindow db limit page filter ∧
        timeOk filter g = true := by
      unfold filteredWindow at hgf
      by_cases htf : hasTimeFilter filter = true
      · rw [if_pos htf] at hgf
        exact ⟨(List.mem_filter.mp hgf).1, (List.mem_filter.mp hgf).2⟩
      · have htf2 : hasTimeFilter filter = false := by simpa using htf
        rw [if_neg htf] at hgf
        exact ⟨hgf, timeOk_of_no_filter htf2 g⟩
    obtain ⟨hgW1, hgtime⟩ := hgW
    have hgS : g ∈ sortGames (db.filter (completedFilter filter)) :=
      hsubW.subset hgW1
    have hgM : g ∈ db.filter (completedFilter filter) :=
      (sortGames_perm _).mem_iff.mp hgS
    obtain ⟨hgdb, hgcf⟩ := List.mem_filter.mp hgM
    have hcf : g.isCompleted = true ∧ attemptsOk filter g = true := by
      unfold completedFilter at hgcf
      simpa using hgcf
    exact ⟨g, hgdb, hcf.1, hcf.2, hgtime, rfl⟩
  · rw [hdata]
    rw [List.pairwise_map]
    have hPW : List.Pairwise (fun a b => gameLe a b = true)
        (pageWindow db limit page filter) :=
      (sortGames_sorted _).sublist hsubW
    have hPF : List.Pairwise (fun a b => gameLe a b = true)
        (filteredWindow db limit page filter) := by
      unfold filteredWindow
      by_cases htf : hasTimeFilter filter = true
      · rw [if_pos htf]
        exact hPW.sublist (List.filter_sublist _)
      · rw [if_neg htf]
        exact hPW
    exact hPF.imp (fun hab => hab)

/-- Witness for C7: the empty database yields an empty, trivially sorted
page. -/
theorem getTopGames_entries_sorted_filtered_witness :
    (∀ e ∈ (⟨[], ⟨1, 10, 0, 0, false, false⟩⟩ : PaginatedLeaderboard).data,
      ∃ g, g ∈ ([] : List Game) ∧ g.isCompleted = true ∧
        attemptsOk none g = true ∧ timeOk none g = true ∧ e = mkEntry g) ∧
    List.Pairwise (fun a b => entryLe a b = true)
      (⟨[], ⟨1, 10, 0, 0, false, false⟩⟩ : PaginatedLeaderboard).data :=
  getTopGames_entries_sorted_filtered [] 10 1 none
    ⟨[], ⟨1, 10, 0, 0, false, false⟩⟩ rfl

/-! ### C8: when an out-of-range page is rejected -/

/-- C8 counterexample: with zero matching sessions (`totalPages = 0`) and
`page = 2 > totalPages`, `getTopGames` returns an empty OK page instead of
throwing — the guard requires `totalPages > 0`. -/
theorem getTopGames_zero_matches_page2_ok :
    getTopGames [] 10 2 none = .ok ⟨[], ⟨2, 10, 0, 0, false, true⟩⟩ := rfl

/-- C8 amended: under valid pagination and filter parameters, `getTopGames`
throws a client-input error exactly when the requested page exceeds the
total number of pages AND at least one session matches (`totalPages > 0`);
when zero sessions match, any valid page — including pages greater than 1 —
returns an OK result with an empty data list. -/
theorem getTopGames_page_error_iff (db : List Game) (limit page : ℤ)
    (filter : Option LeaderboardFilter)
    (hl1 : 0 < limit) (hl2 : limit ≤ 100) (hp : 0 < page)
    (hfil : validateFilterParams filter = .ok ()) :
    ((∃ m, getTopGames db limit page filter = .error (.badRequest m)) ↔
      (totalPagesOf db limit filter < page ∧
        0 < totalPagesOf db limit filter)) ∧
    (matchCountOf db filter = 0 →
      ∃ r, getTopGames db limit page filter = .ok r ∧ r.data = []) := by
  have hval : validatePaginationParams limit page = .ok () := by
    unfold validatePaginationParams
    rw [if_neg (by omega), if_neg (by omega), if_neg (by omega)]
  unfold getTopGames
  rw [hval, hfil]
  constructor
  · by_cases hcond : page > totalPagesOf db limit filter ∧
        0 < totalPagesOf db limit filter
    · rw [if_pos hcond]
      constructor
      · intro _
        exact ⟨hcond.1, hcond.2⟩
      · intro _
        exact ⟨"Page " ++ toString page ++ " exceeds total pages (" ++
          toString (totalPagesOf db limit filter) ++ ")", rfl⟩
    · rw [if_neg hcond]
      constructor
      · rintro ⟨m, hm⟩
        exact Except.noConfusion hm
      · intro hx
        exact absurd hx hcond
  · intro h0
    have hT : totalPagesOf db limit filter = 0 := by
      unfold totalPagesOf
      rw [h0]
      have : ((0 : ℕ) : ℤ) + limit - 1 < limit := by omega
      exact Int.ediv_eq_zero_of_lt (by omega) this
    rw [if_neg (show ¬(page > totalPagesOf db limit filter ∧
        0 < totalPagesOf db limit filter) by rw [hT]; omega)]
    refine ⟨_, rfl, ?_⟩
    show (filteredWindow db limit page filter).map mkEntry = []
    have hmatch : db.filter (completedFilter filter) = [] := by
      have h1 : (db.filter (completedFilter filter)).length = 0 := h0
      exact List.length_eq_zero.mp h1
    unfold filteredWindow pageWindow
    rw [hmatch]
    simp [sortGames]

/-- Witness for C8 at the empty database, limit 10, page 1. -/
theorem getTopGames_page_error_iff_witness :
    ((∃ m, getTopGames [] 10 1 none = .error (.badRequest m)) ↔
      (totalPagesOf [] 10 none < 1 ∧ 0 < totalPagesOf [] 10 none)) ∧
    (matchCountOf [] none = 0 →
      ∃ r, getTopGames [] 10 1 none = .ok r ∧ r.data = []) :=
  getTopGames_page_error_iff [] 10 1 none (by norm_num) (by norm_num)
    (by norm_num) rfl

end MemoryGame
